import Mathlib

/-!
Shallow embedding of the reconciliation logic of `discogs-notion-sync`
(`src/sync.py` and `src/discogs_notion_value_sync.py`).

Modelling conventions:
* Python dict lookups `d.get(k)` become `Option` values; `d.get(k, dflt)`
  becomes `Option.getD`.
* Python string truthiness (`if not s:`) is `none` or the empty string.
* Network calls are modelled as events in an emitted call trace; the
  responses the scripts receive are supplied by an environment record.
* The Unicode character classes of Python's `re` module (`\w`, `\s`) are
  modelled over their ASCII fragment, which covers every string the
  scripts match against these patterns.
-/

namespace DiscogsNotionSync

/-! ## Regex matchers of `sync.py` lines 79-80

`SIZE_PATTERN = re.compile(r'\b(7"|10"|12")')` and
`RPM_PATTERN = re.compile(r"\b(33\s?⅓|33\s?1/3|45|78)\s?RPM\b", re.IGNORECASE)`,
implemented directly as decidable searches over character lists. -/

/-- ASCII fragment of Python's regex word class `\w`. -/
def isWordChar (c : Char) : Bool :=
  c.isAlphanum || c = '_'

/-- ASCII fragment of Python's regex whitespace class `\s`. -/
def isSpaceChar (c : Char) : Bool :=
  c = ' ' || c = '\t' || c = '\n' || c = '\r' || c = '\x0b' || c = '\x0c'

/-- A `\b` word boundary holds before a word character iff the preceding
character (if any) is not a word character. -/
def boundaryBefore : Option Char → Bool
  | none => true
  | some p => !isWordChar p

/-- Does one of the size alternatives `7"`, `10"`, `12"` match at this
position? (All alternatives begin with a digit, a word character.) -/
def sizeAltAt : List Char → Bool
  | '7' :: '"' :: _ => true
  | '1' :: '0' :: '"' :: _ => true
  | '1' :: '2' :: '"' :: _ => true
  | _ => false

/-- Scan for `SIZE_PATTERN`, tracking the previous character for the `\b`. -/
def sizeSearchAux : Option Char → List Char → Bool
  | _, [] => false
  | prev, c :: rest =>
    (boundaryBefore prev && sizeAltAt (c :: rest)) || sizeSearchAux (some c) rest

/-- `SIZE_PATTERN.search(desc)` as a Boolean. -/
def sizeSearch (s : String) : Bool :=
  sizeSearchAux none s.data

/-- The trailing `RPM\b` of `RPM_PATTERN`, case-insensitively. -/
def rpmWord : List Char → Bool
  | r :: p :: m :: rest =>
    r.toLower = 'r' && p.toLower = 'p' && m.toLower = 'm' &&
      (match rest with
       | [] => true
       | d :: _ => !isWordChar d)
  | _ => false

/-- The `\s?RPM\b` tail: the optional whitespace may be taken or not. -/
def rpmTail (l : List Char) : Bool :=
  rpmWord l ||
    (match l with
     | c :: rest => isSpaceChar c && rpmWord rest
     | [] => false)

/-- The numeric alternation `33\s?⅓|33\s?1/3|45|78` followed by `\s?RPM\b`. -/
def rpmAltAt : List Char → Bool
  | '3' :: '3' :: rest =>
    (match rest with
     | '⅓' :: r => rpmTail r
     | '1' :: '/' :: '3' :: r => rpmTail r
     | c :: '⅓' :: r => isSpaceChar c && rpmTail r
     | c :: '1' :: '/' :: '3' :: r => isSpaceChar c && rpmTail r
     | _ => false)
  | '4' :: '5' :: rest => rpmTail rest
  | '7' :: '8' :: rest => rpmTail rest
  | _ => false

/-- Scan for `RPM_PATTERN`, tracking the previous character for the
leading `\b` (every alternative starts with a digit). -/
def rpmSearchAux : Option Char → List Char → Bool
  | _, [] => false
  | prev, c :: rest =>
    (boundaryBefore prev && rpmAltAt (c :: rest)) || rpmSearchAux (some c) rest

/-- `desc.replace("⅓", " 1/3")` from `sync.py` line 97. -/
def replaceFrac : List Char → List Char
  | [] => []
  | '⅓' :: rest => ' ' :: '1' :: '/' :: '3' :: replaceFrac rest
  | c :: rest => c :: replaceFrac rest

/-- `RPM_PATTERN.search(desc.replace("⅓", " 1/3"))` as a Boolean. -/
def rpmSearchRep (s : String) : Bool :=
  rpmSearchAux none (replaceFrac s.data)

/-! ## `parse_formats` (`sync.py` lines 82-104) -/

/-- One entry of the `formats` list of a release detail record; the
`descriptions` key may be absent (`fmt.get("descriptions", [])`). -/
structure Fmt where
  descriptions : Option (List String)

/-- Python truthiness of an optional string: `None` and `""` are falsy. -/
def pyFalsyStr : Option String → Bool
  | none => true
  | some s => s == ""

/-- The descriptor loop of `parse_formats` (lines 90-101): mutable
`size`, `speed`, `details` threaded through the flattened token list. -/
def parseLoop : List String → Option String → Option String → List String →
    Option String × Option String × List String
  | [], size, speed, details => (size, speed, details)
  | d :: rest, size, speed, details =>
    if pyFalsyStr size && sizeSearch d then
      parseLoop rest (some d) speed details
    else if pyFalsyStr speed && rpmSearchRep d then
      parseLoop rest size (some d) details
    else
      parseLoop rest size speed (details ++ [d])

/-- `parse_formats(formats)`: `None` or `[]` input short-circuits to
`(None, None, None)`; otherwise the loop runs over every description of
every format entry, and the leftover descriptors are joined with a comma
(or `None` when there are none). -/
def parse_formats (formats : Option (List Fmt)) :
    Option String × Option String × Option String :=
  match formats with
  | none => (none, none, none)
  | some fs =>
    if fs.isEmpty then (none, none, none)
    else
      let descs := fs.foldr (fun f acc => f.descriptions.getD [] ++ acc) []
      let r := parseLoop descs none none []
      (r.1, r.2.1,
        if r.2.2.isEmpty then none
        else some (String.intercalate ", " r.2.2))

/-! ## The two transport helpers

`sync.py` lines 56-72: `discogs_request(url, max_retries=5)` retries every
request exception — including the `HTTPError` it raises itself on a 429 or
5xx, and the one `raise_for_status` raises on any other 4xx — sleeping
`2 ** attempt` seconds, and returns `None` once the five attempts are spent.

`discogs_notion_value_sync.py` lines 27-45: `discogs_request(url)` loops
forever on 429, sleeping the `Retry-After` header (default 5); a 5xx sleeps
2 seconds and returns `None`; any other non-ok status returns `None`;
otherwise the response is returned. -/

/-- One HTTP response: its status code and parsed `Retry-After` header. -/
structure Resp where
  code : Nat
  retryAfter : Option Nat
deriving DecidableEq

/-- What one attempt of a `requests.get` produces: a response, or a raised
connection-level exception. -/
inductive ReqOutcome where
  | ok (r : Resp)
  | netError
deriving DecidableEq

namespace SyncScript

/-- `sync.py.discogs_request`: `outcomes n` is what attempt `n` yields;
the arguments are the remaining attempts, the current attempt index and
the accumulated sleep log.  Returns the status code of the returned
response (`none` models the `return None` after retries), paired with the
log of sleep durations. -/
def discogs_request (outcomes : Nat → ReqOutcome) :
    Nat → Nat → List Nat → Option Nat × List Nat
  | 0, _, sleeps => (none, sleeps)
  | rem + 1, attempt, sleeps =>
    match outcomes attempt with
    | ReqOutcome.netError =>
      discogs_request outcomes rem (attempt + 1) (sleeps ++ [2 ^ attempt])
    | ReqOutcome.ok r =>
      if 500 ≤ r.code ∨ r.code = 429 then
        discogs_request outcomes rem (attempt + 1) (sleeps ++ [2 ^ attempt])
      else if 400 ≤ r.code then
        discogs_request outcomes rem (attempt + 1) (sleeps ++ [2 ^ attempt])
      else (some r.code, sleeps)

end SyncScript

namespace ValueSync

/-- `discogs_notion_value_sync.py.discogs_request`: the input list holds
the successive responses the `while True` loop receives (the loop issues
one request per list entry; an exhausted list stands for a server that
never answered with a non-429 status, in which case the real loop never
returns).  Result: status code of the returned response (or `none`),
paired with the sleep log. -/
def discogs_request : List Resp → Option Nat × List Nat
  | [] => (none, [])
  | r :: rest =>
    if r.code = 429 then
      ((discogs_request rest).1,
       r.retryAfter.getD 5 :: (discogs_request rest).2)
    else if 500 ≤ r.code then (none, [2])
    else if ¬ r.code < 400 then (none, [])
    else (some r.code, [])

end ValueSync

/-! ## `get_full_collection` (`sync.py` lines 127-146) -/

/-- One page of the paginated collection listing: the `releases` array
(release identifiers suffice for the claims) and `pagination.pages`. -/
structure PageData where
  releases : List Nat
  pages : Nat
deriving DecidableEq

/-- The `while True` loop of `get_full_collection`, with explicit fuel
for termination (the real loop's trip count is bounded by the page count
the server reports): `fetch p` is what `discogs_request` yields for page
`p` (`none` = failure after retries).  On a failed fetch the loop breaks
and the releases accumulated so far are returned as-is. -/
def get_full_collection_loop (fetch : Nat → Option PageData) :
    Nat → Nat → List Nat → List Nat
  | 0, _, acc => acc
  | fuel + 1, page, acc =>
    match fetch page with
    | none => acc
    | some d =>
      let acc2 := acc ++ d.releases
      if d.pages ≤ page then acc2
      else get_full_collection_loop fetch fuel (page + 1) acc2

/-- `get_full_collection()`: start at page 1 with an empty accumulator. -/
def get_full_collection (fetch : Nat → Option PageData) (fuel : Nat) :
    List Nat :=
  get_full_collection_loop fetch fuel 1 []

/-! ## The `main()` loop of `sync.py` (lines 216-331)

The per-item body is modelled as a function from the sync state (the five
in-memory select-option sets and the two counters) to a new state plus a
trace of the network calls it issues.  The responses the loop receives
(folder map, field map, release details, existing Notion pages) are
supplied by an `Env` record. -/

/-- One custom-field note of a collection item (`item["notes"]`). -/
structure Note where
  fieldId : Option Nat
  value : Option String

/-- One entry of the Discogs collection listing.  `releaseId` is
`item["basic_information"]["id"]`. -/
structure Item where
  releaseId : Nat
  folderId : Option Nat
  dateAdded : Option String
  notes : List Note

/-- One label entry of a release detail record. -/
structure Label where
  catno : Option String
deriving DecidableEq

/-- The release detail record returned by `get_release_details` (only the
keys the loop's control flow inspects; a failed request yields `{}`,
i.e. every key absent). -/
structure Release where
  genres : Option (List String)
  styles : Option (List String)
  labels : Option (List Label)
  formats : Option (List Fmt)

/-- The network calls the loop can issue against Discogs and Notion. -/
inductive Call where
  | schemaUpdate (field : String) (newValue : String) (options : Finset String)
  | detailFetch (releaseId : Nat)
  | marketFetch (releaseId : Nat)
  | createPage (releaseId : Nat)
  | updatePage (pageId : String)
deriving DecidableEq

/-- Is this call the database-schema PATCH of `update_select_schema`? -/
def isSchema : Call → Bool
  | Call.schemaUpdate _ _ _ => true
  | _ => false

/-- Is this call a page write (the create POST or the update PATCH)? -/
def isWrite : Call → Bool
  | Call.createPage _ => true
  | Call.updatePage _ => true
  | _ => false

/-- The per-run mutable state of `main()`: the five select-option sets
fetched at start-up (and mutated by `update_select_schema`) and the two
counters the script maintains. -/
structure SyncSt where
  folderOptions : Finset String
  mediaOptions : Finset String
  sleeveOptions : Finset String
  genreOptions : Finset String
  styleOptions : Finset String
  created : Nat
  updated : Nat

/-- The responses the loop receives from the two services. -/
structure Env where
  folderMap : Nat → Option String
  fieldMap : Nat → Option String
  detail : Nat → Release
  notionPages : Nat → Option String

/-- `update_select_schema(property_name, new_value, existing_options)`
(lines 196-209): the new value is added to the shared in-memory set, and
one schema PATCH carrying the whole enlarged set is issued. -/
def update_select_schema (property_name : String) (new_value : String)
    (existing_options : Finset String) : Finset String × List Call :=
  (insert new_value existing_options,
   [Call.schemaUpdate property_name new_value (insert new_value existing_options)])

/-- The guard pattern `if value and value not in options:
update_select_schema(...)` used for each of the five select fields. -/
def ensureSelect (field : String) (value : Option String)
    (options : Finset String) : Finset String × List Call :=
  match value with
  | none => (options, [])
  | some s =>
    if s ≠ "" ∧ s ∉ options then update_select_schema field s options
    else (options, [])

/-- The condition-split loop over `item["notes"]` (lines 245-255):
the last note naming each condition field wins. -/
def conditionSplit (fieldMap : Nat → Option String) (notes : List Note) :
    Option String × Option String :=
  notes.foldl
    (fun acc n =>
      match n.fieldId.bind fieldMap with
      | some fn =>
        if fn = "Media Condition" then (n.value, acc.2)
        else if fn = "Sleeve Condition" then (acc.1, n.value)
        else acc
      | none => acc)
    (none, none)

/-- `full_release.get("genres", [None])[0]` (line 273, same for styles):
the `[None]` default applies only when the key is absent; a present but
empty list raises `IndexError`, modelled as `Except.error`. -/
def firstOrErr : Option (List String) → Except Unit (Option String)
  | none => Except.ok none
  | some [] => Except.error ()
  | some (g :: _) => Except.ok (some g)

/-- `full_release.get("labels", [{}])[0].get("catno", "")` (line 286):
again a present-but-empty list raises `IndexError`. -/
def firstLabelCatno : Option (List Label) → Except Unit String
  | none => Except.ok ""
  | some [] => Except.error ()
  | some (l :: _) => Except.ok (l.catno.getD "")

/-- The first block of select-schema maintenance (lines 258-265):
Folder, Media Condition, Sleeve Condition. -/
def schemaPhase1 (env : Env) (st : SyncSt) (item : Item) :
    SyncSt × List Call :=
  let folderName := item.folderId.bind env.folderMap
  let conds := conditionSplit env.fieldMap item.notes
  let r1 := ensureSelect "Folder" folderName st.folderOptions
  let r2 := ensureSelect "Media Condition" conds.1 st.mediaOptions
  let r3 := ensureSelect "Sleeve Condition" conds.2 st.sleeveOptions
  ({ st with folderOptions := r1.1, mediaOptions := r2.1,
             sleeveOptions := r3.1 },
   r1.2 ++ r2.2 ++ r3.2)

/-- The second block of select-schema maintenance (lines 276-280):
Genre and Style, run after the detail fetch succeeds in extracting both. -/
def schemaPhase2 (st : SyncSt) (genre style : Option String) :
    SyncSt × List Call :=
  let r4 := ensureSelect "Genre" genre st.genreOptions
  let r5 := ensureSelect "Style" style st.styleOptions
  ({ st with genreOptions := r4.1, styleOptions := r5.1 }, r4.2 ++ r5.2)

/-- One iteration of the `for item in collection` loop (lines 236-327),
`try` body plus `except` handler: schema phase 1, the detail and
market-stats fetches, genre/style extraction (which can raise), schema
phase 2, the catno extraction (which can raise), then the create/update
decision against the Notion index.  A raised `IndexError` is caught by
the per-item handler: the state keeps whatever schema mutations already
happened, the counters are untouched, and no page write is issued. -/
def processItem (env : Env) (st : SyncSt) (item : Item) :
    SyncSt × List Call :=
  let rid := item.releaseId
  let p1 := schemaPhase1 env st item
  let pre := p1.2 ++ [Call.detailFetch rid, Call.marketFetch rid]
  let fr := env.detail rid
  match firstOrErr fr.genres, firstOrErr fr.styles with
  | Except.ok genre, Except.ok style =>
    let p2 := schemaPhase2 p1.1 genre style
    match firstLabelCatno fr.labels with
    | Except.ok _ =>
      match env.notionPages rid with
      | some pageId =>
        ({ p2.1 with updated := p2.1.updated + 1 },
         pre ++ p2.2 ++ [Call.updatePage pageId])
      | none =>
        ({ p2.1 with created := p2.1.created + 1 },
         pre ++ p2.2 ++ [Call.createPage rid])
    | Except.error _ => (p2.1, pre ++ p2.2)
  | _, _ => (p1.1, pre)

/-- The whole loop: fold `processItem` over the collection, concatenating
the call traces. -/
def runSync (env : Env) : SyncSt → List Item → SyncSt × List Call
  | st, [] => (st, [])
  | st, item :: rest =>
    let r := processItem env st item
    let rr := runSync env r.1 rest
    (rr.1, r.2 ++ rr.2)

/-- The final report of `main()` (lines 329-331): the script prints
exactly two counters, `Created` and `Updated`. -/
def sync_report (st : SyncSt) : List (String × Nat) :=
  [("Created", st.created), ("Updated", st.updated)]

/-! ## The `main()` loop of `discogs_notion_value_sync.py` (lines 130-172) -/

/-- One Notion page as collected by `fetch_all_pages`: the page id and
the stored `Discogs ID` / `ValueLow` / `ValueMed` / `ValueHigh` numbers
(any of which may be `null`). -/
structure NPage where
  pageId : String
  discogsId : Option Int
  low : Option Int
  med : Option Int
  high : Option Int

/-- Responses the value-sync loop receives: the market values
`get_market_values` yields per release, and whether the page PATCH
succeeds. -/
structure VSEnv where
  market : Int → Option Int × Option Int × Option Int
  patchOk : String → Bool

/-- The calls the value-sync loop issues: the market-value fetch pair
(stats + price suggestions, one event) and the page PATCH. -/
inductive VSCall where
  | marketFetch (releaseId : Int)
  | patchValues (pageId : String)
deriving DecidableEq

/-- One iteration of the value-sync loop over `(updated, skipped)`:
a falsy `Discogs ID` (absent or zero) is skipped; otherwise the market
values are fetched and compared against the stored triple — equality
skips with no write, inequality issues the PATCH and counts `updated`
only when the PATCH succeeds. -/
def vs_step (env : VSEnv) (c : Nat × Nat) (p : NPage) :
    (Nat × Nat) × List VSCall :=
  match p.discogsId with
  | none => ((c.1, c.2 + 1), [])
  | some rid =>
    if rid = 0 then ((c.1, c.2 + 1), [])
    else
      let lmh := env.market rid
      if p.low = lmh.1 ∧ p.med = lmh.2.1 ∧ p.high = lmh.2.2 then
        ((c.1, c.2 + 1), [VSCall.marketFetch rid])
      else
        ((if env.patchOk p.pageId then c.1 + 1 else c.1, c.2),
         [VSCall.marketFetch rid, VSCall.patchValues p.pageId])

/-- The whole value-sync loop. -/
def vs_main (env : VSEnv) : Nat × Nat → List NPage → (Nat × Nat) × List VSCall
  | c, [] => (c, [])
  | c, p :: rest =>
    let r := vs_step env c p
    let rr := vs_main env r.1 rest
    (rr.1, r.2 ++ rr.2)

/-- The final report of the value-sync script (lines 170-172): `Updated`
and `Unchanged` (the latter printing the `skipped` counter). -/
def vs_report (c : Nat × Nat) : List (String × Nat) :=
  [("Updated", c.1), ("Unchanged", c.2)]

/-! ## Helper lemmas: counting schema-update calls -/

/-- Is this call a schema update for field `f` triggered by new value `v`? -/
def isSchemaFor (f v : String) : Call → Bool
  | Call.schemaUpdate g u _ => g == f && u == v
  | _ => false

/-- Number of schema-update calls for field `f` triggered by value `v`. -/
def countFV (f v : String) (calls : List Call) : Nat :=
  (calls.filter (isSchemaFor f v)).length

/-- The in-memory option set of `main()` that a given Notion property name
refers to (the five select properties the script maintains). -/
def optsOf (st : SyncSt) (f : String) : Finset String :=
  if f = "Folder" then st.folderOptions
  else if f = "Media Condition" then st.mediaOptions
  else if f = "Sleeve Condition" then st.sleeveOptions
  else if f = "Genre" then st.genreOptions
  else if f = "Style" then st.styleOptions
  else ∅

/-! ## Concrete runs used as counterexamples and witnesses -/

/-- A sync state with all option sets empty and counters zero. -/
def stZ : SyncSt :=
  { folderOptions := ∅, mediaOptions := ∅, sleeveOptions := ∅,
    genreOptions := ∅, styleOptions := ∅, created := 0, updated := 0 }

/-- A sync state whose Genre options already contain the one genre the
environment below serves: every select value of the run is known. -/
def stU : SyncSt :=
  { folderOptions := ∅, mediaOptions := ∅, sleeveOptions := ∅,
    genreOptions := {"Rock"}, styleOptions := ∅, created := 0, updated := 0 }

/-- A collection item whose release id 1 is already present in Notion. -/
def itemU : Item :=
  { releaseId := 1, folderId := none, dateAdded := none, notes := [] }

/-- Environment of a re-run with no source changes: release 1 already has
a Notion page and its detail record is unchanged. -/
def envU : Env :=
  { folderMap := fun _ => none
    fieldMap := fun _ => none
    detail := fun _ =>
      { genres := some ["Rock"], styles := none, labels := none,
        formats := none }
    notionPages := fun rid => if rid = 1 then some "pg1" else none }

/-- Two items sitting in two different folders never seen before. -/
def itemA : Item :=
  { releaseId := 10, folderId := some 1, dateAdded := none, notes := [] }

def itemB : Item :=
  { releaseId := 11, folderId := some 2, dateAdded := none, notes := [] }

/-- Environment in which folders 1 and 2 map to the two new folder names
`A` and `B` and nothing exists in Notion yet. -/
def envC : Env :=
  { folderMap := fun n => if n = 1 then some "A"
      else if n = 2 then some "B" else none
    fieldMap := fun _ => none
    detail := fun _ =>
      { genres := none, styles := none, labels := none, formats := none }
    notionPages := fun _ => none }

/-- An item whose detail record carries `"genres": []` — the extraction
`full_release.get("genres", [None])[0]` raises `IndexError` on it. -/
def itemG : Item :=
  { releaseId := 7, folderId := none, dateAdded := none, notes := [] }

def envG : Env :=
  { folderMap := fun _ => none
    fieldMap := fun _ => none
    detail := fun _ =>
      { genres := some [], styles := none, labels := none, formats := none }
    notionPages := fun _ => none }

/-- A paginated source whose page 1 reports two total pages but whose
page 2 fetch fails after retries. -/
def fetchFail : Nat → Option PageData :=
  fun p => if p = 1 then some ⟨[101], 2⟩ else none

/-- The same source with page 2 healthy. -/
def fetchOk : Nat → Option PageData :=
  fun p => if p = 1 then some ⟨[101], 2⟩
    else if p = 2 then some ⟨[102], 2⟩ else none

/-- A Notion page whose stored market values match what the market
currently reports — an unchanged item for the value-sync script. -/
def pageW : NPage :=
  { pageId := "pw", discogsId := some 5, low := some 10, med := none,
    high := some 30 }

def vsEnvW : VSEnv :=
  { market := fun rid =>
      if rid = 5 then (some 10, none, some 30) else (none, none, none)
    patchOk := fun _ => true }

theorem countFV_nil (f v : String) : countFV f v [] = 0 := rfl

theorem countFV_append (f v : String) (l₁ l₂ : List Call) :
    countFV f v (l₁ ++ l₂) = countFV f v l₁ + countFV f v l₂ := by
  simp [countFV, List.filter_append]

theorem countFV_single_nonschema (f v : String) (c : Call)
    (h : isSchemaFor f v c = false) : countFV f v [c] = 0 := by
  simp [countFV, List.filter, h]

theorem countFV_detailFetch (f v : String) (r : Nat) :
    countFV f v [Call.detailFetch r] = 0 := rfl

theorem countFV_marketFetch (f v : String) (r : Nat) :
    countFV f v [Call.marketFetch r] = 0 := rfl

theorem countFV_createPage (f v : String) (r : Nat) :
    countFV f v [Call.createPage r] = 0 := rfl

theorem countFV_updatePage (f v : String) (p : String) :
    countFV f v [Call.updatePage p] = 0 := rfl

/-! ### `ensureSelect` lemmas -/

theorem ensureSelect_subset (f : String) (v : Option String)
    (opts : Finset String) : opts ⊆ (ensureSelect f v opts).1 := by
  cases v with
  | none => exact Finset.Subset.refl _
  | some s =>
    simp only [ensureSelect]
    split
    · exact Finset.subset_insert _ _
    · exact Finset.Subset.refl _

theorem ensureSelect_not_write (f : String) (v : Option String)
    (opts : Finset String) :
    ∀ c ∈ (ensureSelect f v opts).2, isWrite c = false := by
  cases v with
  | none => simp [ensureSelect]
  | some s =>
    simp only [ensureSelect]
    split
    · simp [update_select_schema, isWrite]
    · simp

theorem ensureSelect_count_le (f v f' v' : String) (opts : Finset String) :
    countFV f' v' (ensureSelect f (some v) opts).2 ≤ 1 := by
  simp only [ensureSelect]
  split
  · simp [update_select_schema, countFV, List.filter]
    split <;> simp
  · simp [countFV]

theorem ensureSelect_count_le' (f f' v' : String) (v : Option String)
    (opts : Finset String) :
    countFV f' v' (ensureSelect f v opts).2 ≤ 1 := by
  cases v with
  | none => simp [ensureSelect, countFV]
  | some s => exact ensureSelect_count_le f s f' v' opts

theorem ensureSelect_count_ne (f f' v' : String) (v : Option String)
    (opts : Finset String) (h : f' ≠ f) :
    countFV f' v' (ensureSelect f v opts).2 = 0 := by
  cases v with
  | none => rfl
  | some s =>
    simp only [ensureSelect]
    split
    · have hb : (f == f') = false := beq_eq_false_iff_ne.mpr (Ne.symm h)
      simp [update_select_schema, countFV, List.filter, isSchemaFor, hb]
    · rfl

theorem ensureSelect_count_mem (f f' v' : String) (v : Option String)
    (opts : Finset String) (h : v' ∈ opts) :
    countFV f' v' (ensureSelect f v opts).2 = 0 := by
  cases v with
  | none => rfl
  | some s =>
    simp only [ensureSelect]
    split
    · rename_i hguard
      have hb : (s == v') = false :=
        beq_eq_false_iff_ne.mpr (fun hv => hguard.2 (hv ▸ h))
      simp [update_select_schema, countFV, List.filter, isSchemaFor, hb]
    · rfl

theorem ensureSelect_count_pos (f f' v' : String) (v : Option String)
    (opts : Finset String) (h : 1 ≤ countFV f' v' (ensureSelect f v opts).2) :
    f' = f ∧ v' ∉ opts ∧ v' ∈ (ensureSelect f v opts).1 := by
  cases v with
  | none => simp [ensureSelect, countFV] at h
  | some s =>
    revert h
    simp only [ensureSelect]
    split
    · rename_i hguard
      simp only [update_select_schema, countFV, List.filter, isSchemaFor]
      split
      · rename_i hmatch
        intro _
        simp only [Bool.and_eq_true, beq_iff_eq] at hmatch
        refine ⟨hmatch.1.symm, ?_, ?_⟩
        · exact hmatch.2 ▸ hguard.2
        · exact hmatch.2 ▸ Finset.mem_insert_self s opts
      · intro h; simp at h
    · intro h; simp [countFV] at h

/-! ### Lemmas about the two ensure chains of the loop body -/

theorem chain3_count_le (f v : String) (v1 v2 v3 : Option String)
    (o1 o2 o3 : Finset String) :
    countFV f v ((ensureSelect "Folder" v1 o1).2 ++
      (ensureSelect "Media Condition" v2 o2).2 ++
      (ensureSelect "Sleeve Condition" v3 o3).2) ≤ 1 := by
  rw [countFV_append, countFV_append]
  by_cases h1 : f = "Folder"
  · subst h1
    rw [ensureSelect_count_ne "Media Condition" "Folder" v v2 o2 (by decide),
        ensureSelect_count_ne "Sleeve Condition" "Folder" v v3 o3 (by decide)]
    have := ensureSelect_count_le' "Folder" "Folder" v v1 o1
    omega
  · by_cases h2 : f = "Media Condition"
    · subst h2
      rw [ensureSelect_count_ne "Folder" "Media Condition" v v1 o1 (by decide),
          ensureSelect_count_ne "Sleeve Condition" "Media Condition" v v3 o3
            (by decide)]
      have := ensureSelect_count_le' "Media Condition" "Media Condition" v v2 o2
      omega
    · by_cases h3 : f = "Sleeve Condition"
      · subst h3
        rw [ensureSelect_count_ne "Folder" "Sleeve Condition" v v1 o1 (by decide),
            ensureSelect_count_ne "Media Condition" "Sleeve Condition" v v2 o2
              (by decide)]
        have := ensureSelect_count_le' "Sleeve Condition" "Sleeve Condition" v v3 o3
        omega
      · rw [ensureSelect_count_ne "Folder" f v v1 o1 h1,
            ensureSelect_count_ne "Media Condition" f v v2 o2 h2,
            ensureSelect_count_ne "Sleeve Condition" f v v3 o3 h3]
        omega

theorem chain3_count_fields (f v : String) (v1 v2 v3 : Option String)
    (o1 o2 o3 : Finset String)
    (h : 1 ≤ countFV f v ((ensureSelect "Folder" v1 o1).2 ++
      (ensureSelect "Media Condition" v2 o2).2 ++
      (ensureSelect "Sleeve Condition" v3 o3).2)) :
    f = "Folder" ∨ f = "Media Condition" ∨ f = "Sleeve Condition" := by
  by_contra hc
  push_neg at hc
  rw [countFV_append, countFV_append,
      ensureSelect_count_ne "Folder" f v v1 o1 hc.1,
      ensureSelect_count_ne "Media Condition" f v v2 o2 hc.2.1,
      ensureSelect_count_ne "Sleeve Condition" f v v3 o3 hc.2.2] at h
  omega

theorem chain3_count_mem (f v : String) (v1 v2 v3 : Option String)
    (o1 o2 o3 : Finset String)
    (m1 : f = "Folder" → v ∈ o1)
    (m2 : f = "Media Condition" → v ∈ o2)
    (m3 : f = "Sleeve Condition" → v ∈ o3) :
    countFV f v ((ensureSelect "Folder" v1 o1).2 ++
      (ensureSelect "Media Condition" v2 o2).2 ++
      (ensureSelect "Sleeve Condition" v3 o3).2) = 0 := by
  rw [countFV_append, countFV_append]
  by_cases h1 : f = "Folder"
  · subst h1
    rw [ensureSelect_count_mem "Folder" "Folder" v v1 o1 (m1 rfl),
        ensureSelect_count_ne "Media Condition" "Folder" v v2 o2 (by decide),
        ensureSelect_count_ne "Sleeve Condition" "Folder" v v3 o3 (by decide)]
  · by_cases h2 : f = "Media Condition"
    · subst h2
      rw [ensureSelect_count_ne "Folder" "Media Condition" v v1 o1 (by decide),
          ensureSelect_count_mem "Media Condition" "Media Condition" v v2 o2
            (m2 rfl),
          ensureSelect_count_ne "Sleeve Condition" "Media Condition" v v3 o3
            (by decide)]
    · by_cases h3 : f = "Sleeve Condition"
      · subst h3
        rw [ensureSelect_count_ne "Folder" "Sleeve Condition" v v1 o1 (by decide),
            ensureSelect_count_ne "Media Condition" "Sleeve Condition" v v2 o2
              (by decide),
            ensureSelect_count_mem "Sleeve Condition" "Sleeve Condition" v v3 o3
              (m3 rfl)]
      · rw [ensureSelect_count_ne "Folder" f v v1 o1 h1,
            ensureSelect_count_ne "Media Condition" f v v2 o2 h2,
            ensureSelect_count_ne "Sleeve Condition" f v v3 o3 h3]

theorem chain3_count_pos (f v : String) (v1 v2 v3 : Option String)
    (o1 o2 o3 : Finset String)
    (h : 1 ≤ countFV f v ((ensureSelect "Folder" v1 o1).2 ++
      (ensureSelect "Media Condition" v2 o2).2 ++
      (ensureSelect "Sleeve Condition" v3 o3).2)) :
    (f = "Folder" ∧ v ∉ o1 ∧ v ∈ (ensureSelect "Folder" v1 o1).1) ∨
    (f = "Media Condition" ∧ v ∉ o2 ∧
      v ∈ (ensureSelect "Media Condition" v2 o2).1) ∨
    (f = "Sleeve Condition" ∧ v ∉ o3 ∧
      v ∈ (ensureSelect "Sleeve Condition" v3 o3).1) := by
  rw [countFV_append, countFV_append] at h
  have hsplit : 1 ≤ countFV f v (ensureSelect "Folder" v1 o1).2 ∨
      1 ≤ countFV f v (ensureSelect "Media Condition" v2 o2).2 ∨
      1 ≤ countFV f v (ensureSelect "Sleeve Condition" v3 o3).2 := by omega
  rcases hsplit with hp | hp | hp
  · exact Or.inl (ensureSelect_count_pos "Folder" f v v1 o1 hp)
  · exact Or.inr (Or.inl (ensureSelect_count_pos "Media Condition" f v v2 o2 hp))
  · exact Or.inr (Or.inr (ensureSelect_count_pos "Sleeve Condition" f v v3 o3 hp))

theorem chain2_count_le (f v : String) (v4 v5 : Option String)
    (o4 o5 : Finset String) :
    countFV f v ((ensureSelect "Genre" v4 o4).2 ++
      (ensureSelect "Style" v5 o5).2) ≤ 1 := by
  rw [countFV_append]
  by_cases h4 : f = "Genre"
  · subst h4
    rw [ensureSelect_count_ne "Style" "Genre" v v5 o5 (by decide)]
    have := ensureSelect_count_le' "Genre" "Genre" v v4 o4
    omega
  · by_cases h5 : f = "Style"
    · subst h5
      rw [ensureSelect_count_ne "Genre" "Style" v v4 o4 (by decide)]
      have := ensureSelect_count_le' "Style" "Style" v v5 o5
      omega
    · rw [ensureSelect_count_ne "Genre" f v v4 o4 h4,
          ensureSelect_count_ne "Style" f v v5 o5 h5]
      omega

theorem chain2_count_fields (f v : String) (v4 v5 : Option String)
    (o4 o5 : Finset String)
    (h : 1 ≤ countFV f v ((ensureSelect "Genre" v4 o4).2 ++
      (ensureSelect "Style" v5 o5).2)) :
    f = "Genre" ∨ f = "Style" := by
  by_contra hc
  push_neg at hc
  rw [countFV_append, ensureSelect_count_ne "Genre" f v v4 o4 hc.1,
      ensureSelect_count_ne "Style" f v v5 o5 hc.2] at h
  omega

theorem chain2_count_mem (f v : String) (v4 v5 : Option String)
    (o4 o5 : Finset String)
    (m4 : f = "Genre" → v ∈ o4) (m5 : f = "Style" → v ∈ o5) :
    countFV f v ((ensureSelect "Genre" v4 o4).2 ++
      (ensureSelect "Style" v5 o5).2) = 0 := by
  rw [countFV_append]
  by_cases h4 : f = "Genre"
  · subst h4
    rw [ensureSelect_count_mem "Genre" "Genre" v v4 o4 (m4 rfl),
        ensureSelect_count_ne "Style" "Genre" v v5 o5 (by decide)]
  · by_cases h5 : f = "Style"
    · subst h5
      rw [ensureSelect_count_ne "Genre" "Style" v v4 o4 (by decide),
          ensureSelect_count_mem "Style" "Style" v v5 o5 (m5 rfl)]
    · rw [ensureSelect_count_ne "Genre" f v v4 o4 h4,
          ensureSelect_count_ne "Style" f v v5 o5 h5]

theorem chain2_count_pos (f v : String) (v4 v5 : Option String)
    (o4 o5 : Finset String)
    (h : 1 ≤ countFV f v ((ensureSelect "Genre" v4 o4).2 ++
      (ensureSelect "Style" v5 o5).2)) :
    (f = "Genre" ∧ v ∉ o4 ∧ v ∈ (ensureSelect "Genre" v4 o4).1) ∨
    (f = "Style" ∧ v ∉ o5 ∧ v ∈ (ensureSelect "Style" v5 o5).1) := by
  rw [countFV_append] at h
  have hsplit : 1 ≤ countFV f v (ensureSelect "Genre" v4 o4).2 ∨
      1 ≤ countFV f v (ensureSelect "Style" v5 o5).2 := by omega
  rcases hsplit with hp | hp
  · exact Or.inl (ensureSelect_count_pos "Genre" f v v4 o4 hp)
  · exact Or.inr (ensureSelect_count_pos "Style" f v v5 o5 hp)

/-! ### `optsOf` facts -/

theorem optsOf_folder (st : SyncSt) : optsOf st "Folder" = st.folderOptions := rfl

theorem optsOf_media (st : SyncSt) :
    optsOf st "Media Condition" = st.mediaOptions := rfl

theorem optsOf_sleeve (st : SyncSt) :
    optsOf st "Sleeve Condition" = st.sleeveOptions := rfl

theorem optsOf_genre (st : SyncSt) : optsOf st "Genre" = st.genreOptions := rfl

theorem optsOf_style (st : SyncSt) : optsOf st "Style" = st.styleOptions := rfl

theorem optsOf_other (st : SyncSt) (f : String) (h1 : f ≠ "Folder")
    (h2 : f ≠ "Media Condition") (h3 : f ≠ "Sleeve Condition")
    (h4 : f ≠ "Genre") (h5 : f ≠ "Style") : optsOf st f = ∅ := by
  unfold optsOf
  rw [if_neg h1, if_neg h2, if_neg h3, if_neg h4, if_neg h5]

/-! ### Phase-level lemmas -/

theorem schemaPhase1_eq (env : Env) (st : SyncSt) (item : Item) :
    schemaPhase1 env st item =
      ({ st with
          folderOptions := (ensureSelect "Folder"
            (item.folderId.bind env.folderMap) st.folderOptions).1,
          mediaOptions := (ensureSelect "Media Condition"
            (conditionSplit env.fieldMap item.notes).1 st.mediaOptions).1,
          sleeveOptions := (ensureSelect "Sleeve Condition"
            (conditionSplit env.fieldMap item.notes).2 st.sleeveOptions).1 },
       (ensureSelect "Folder" (item.folderId.bind env.folderMap)
          st.folderOptions).2 ++
       (ensureSelect "Media Condition" (conditionSplit env.fieldMap item.notes).1
          st.mediaOptions).2 ++
       (ensureSelect "Sleeve Condition" (conditionSplit env.fieldMap item.notes).2
          st.sleeveOptions).2) := rfl

theorem schemaPhase2_eq (st : SyncSt) (genre style : Option String) :
    schemaPhase2 st genre style =
      ({ st with
          genreOptions := (ensureSelect "Genre" genre st.genreOptions).1,
          styleOptions := (ensureSelect "Style" style st.styleOptions).1 },
       (ensureSelect "Genre" genre st.genreOptions).2 ++
       (ensureSelect "Style" style st.styleOptions).2) := rfl

theorem schemaPhase1_count_le (env : Env) (st : SyncSt) (item : Item)
    (f v : String) : countFV f v (schemaPhase1 env st item).2 ≤ 1 := by
  rw [schemaPhase1_eq]
  exact chain3_count_le f v _ _ _ _ _ _

theorem schemaPhase2_count_le (st : SyncSt) (genre style : Option String)
    (f v : String) : countFV f v (schemaPhase2 st genre style).2 ≤ 1 := by
  rw [schemaPhase2_eq]
  exact chain2_count_le f v _ _ _ _

theorem schemaPhase1_count_fields (env : Env) (st : SyncSt) (item : Item)
    (f v : String) (h : 1 ≤ countFV f v (schemaPhase1 env st item).2) :
    f = "Folder" ∨ f = "Media Condition" ∨ f = "Sleeve Condition" := by
  rw [schemaPhase1_eq] at h
  exact chain3_count_fields f v _ _ _ _ _ _ h

theorem schemaPhase2_count_fields (st : SyncSt) (genre style : Option String)
    (f v : String) (h : 1 ≤ countFV f v (schemaPhase2 st genre style).2) :
    f = "Genre" ∨ f = "Style" := by
  rw [schemaPhase2_eq] at h
  exact chain2_count_fields f v _ _ _ _ h

theorem schemaPhase1_count_mem (env : Env) (st : SyncSt) (item : Item)
    (f v : String) (hmem : v ∈ optsOf st f) :
    countFV f v (schemaPhase1 env st item).2 = 0 := by
  rw [schemaPhase1_eq]
  refine chain3_count_mem f v _ _ _ _ _ _ ?_ ?_ ?_ <;> intro hf <;> subst hf
  · exact optsOf_folder st ▸ hmem
  · exact optsOf_media st ▸ hmem
  · exact optsOf_sleeve st ▸ hmem

theorem schemaPhase2_count_mem (st : SyncSt) (genre style : Option String)
    (f v : String) (hmem : v ∈ optsOf st f) :
    countFV f v (schemaPhase2 st genre style).2 = 0 := by
  rw [schemaPhase2_eq]
  refine chain2_count_mem f v _ _ _ _ ?_ ?_ <;> intro hf <;> subst hf
  · exact optsOf_genre st ▸ hmem
  · exact optsOf_style st ▸ hmem

theorem schemaPhase1_mono (env : Env) (st : SyncSt) (item : Item) (f : String) :
    optsOf st f ⊆ optsOf (schemaPhase1 env st item).1 f := by
  rw [schemaPhase1_eq]
  by_cases h1 : f = "Folder"
  · subst h1; exact ensureSelect_subset _ _ _
  · by_cases h2 : f = "Media Condition"
    · subst h2; exact ensureSelect_subset _ _ _
    · by_cases h3 : f = "Sleeve Condition"
      · subst h3; exact ensureSelect_subset _ _ _
      · by_cases h4 : f = "Genre"
        · subst h4; exact Finset.Subset.refl _
        · by_cases h5 : f = "Style"
          · subst h5; exact Finset.Subset.refl _
          · rw [optsOf_other _ f h1 h2 h3 h4 h5, optsOf_other _ f h1 h2 h3 h4 h5]

theorem schemaPhase2_mono (st : SyncSt) (genre style : Option String)
    (f : String) : optsOf st f ⊆ optsOf (schemaPhase2 st genre style).1 f := by
  rw [schemaPhase2_eq]
  by_cases h4 : f = "Genre"
  · subst h4; exact ensureSelect_subset _ _ _
  · by_cases h5 : f = "Style"
    · subst h5; exact ensureSelect_subset _ _ _
    · by_cases h1 : f = "Folder"
      · subst h1; exact Finset.Subset.refl _
      · by_cases h2 : f = "Media Condition"
        · subst h2; exact Finset.Subset.refl _
        · by_cases h3 : f = "Sleeve Condition"
          · subst h3; exact Finset.Subset.refl _
          · rw [optsOf_other _ f h1 h2 h3 h4 h5, optsOf_other _ f h1 h2 h3 h4 h5]

theorem schemaPhase1_count_pos (env : Env) (st : SyncSt) (item : Item)
    (f v : String) (h : 1 ≤ countFV f v (schemaPhase1 env st item).2) :
    v ∉ optsOf st f ∧ v ∈ optsOf (schemaPhase1 env st item).1 f := by
  rw [schemaPhase1_eq] at h ⊢
  rcases chain3_count_pos f v _ _ _ _ _ _ h with ⟨hf, hno, hin⟩ | ⟨hf, hno, hin⟩ | ⟨hf, hno, hin⟩ <;>
    subst hf
  · exact ⟨hno, hin⟩
  · exact ⟨hno, hin⟩
  · exact ⟨hno, hin⟩

theorem schemaPhase2_count_pos (st : SyncSt) (genre style : Option String)
    (f v : String) (h : 1 ≤ countFV f v (schemaPhase2 st genre style).2) :
    v ∉ optsOf st f ∧ v ∈ optsOf (schemaPhase2 st genre style).1 f := by
  rw [schemaPhase2_eq] at h ⊢
  rcases chain2_count_pos f v _ _ _ _ h with ⟨hf, hno, hin⟩ | ⟨hf, hno, hin⟩ <;>
    subst hf
  · exact ⟨hno, hin⟩
  · exact ⟨hno, hin⟩

theorem schemaPhase1_not_write (env : Env) (st : SyncSt) (item : Item) :
    ∀ c ∈ (schemaPhase1 env st item).2, isWrite c = false := by
  rw [schemaPhase1_eq]
  intro c hc
  simp only [List.mem_append] at hc
  rcases hc with (hc | hc) | hc
  · exact ensureSelect_not_write _ _ _ c hc
  · exact ensureSelect_not_write _ _ _ c hc
  · exact ensureSelect_not_write _ _ _ c hc

theorem schemaPhase2_not_write (st : SyncSt) (genre style : Option String) :
    ∀ c ∈ (schemaPhase2 st genre style).2, isWrite c = false := by
  rw [schemaPhase2_eq]
  intro c hc
  simp only [List.mem_append] at hc
  rcases hc with hc | hc
  · exact ensureSelect_not_write _ _ _ c hc
  · exact ensureSelect_not_write _ _ _ c hc

theorem schemaPhase1_counters (env : Env) (st : SyncSt) (item : Item) :
    (schemaPhase1 env st item).1.created = st.created ∧
    (schemaPhase1 env st item).1.updated = st.updated := by
  rw [schemaPhase1_eq]
  exact ⟨rfl, rfl⟩

theorem schemaPhase2_counters (st : SyncSt) (genre style : Option String) :
    (schemaPhase2 st genre style).1.created = st.created ∧
    (schemaPhase2 st genre style).1.updated = st.updated := by
  rw [schemaPhase2_eq]
  exact ⟨rfl, rfl⟩

theorem optsOf_set_updated (st : SyncSt) (n : Nat) (f : String) :
    optsOf { st with updated := n } f = optsOf st f := rfl

theorem optsOf_set_created (st : SyncSt) (n : Nat) (f : String) :
    optsOf { st with created := n } f = optsOf st f := rfl

/-! ### Item-level structure lemma

Every branch of the loop body produces a trace of the form
`phase1-schema-calls ++ [detail, market] ++ phase2-schema-calls ++ writes`,
where the write segment carries no schema call and the schema segments
carry no write. -/

theorem processItem_shape (env : Env) (st : SyncSt) (item : Item) :
    ∃ tail w : List Call,
      (processItem env st item).2 =
        (schemaPhase1 env st item).2 ++
        [Call.detailFetch item.releaseId, Call.marketFetch item.releaseId] ++
        tail ++ w ∧
      (∀ c ∈ tail, isWrite c = false) ∧
      (∀ c ∈ w, isSchema c = false) ∧
      (∀ f v, countFV f v w = 0) ∧
      (∀ f v, countFV f v tail ≤ 1) ∧
      (∀ f v, 1 ≤ countFV f v tail → f = "Genre" ∨ f = "Style") ∧
      (∀ f v, v ∈ optsOf (schemaPhase1 env st item).1 f →
        countFV f v tail = 0) ∧
      (∀ f, optsOf (schemaPhase1 env st item).1 f ⊆
        optsOf (processItem env st item).1 f) ∧
      (∀ f v, 1 ≤ countFV f v tail →
        v ∈ optsOf (processItem env st item).1 f) := by
  simp only [processItem]
  split
  · rename_i genre style hg hs
    split
    · rename_i c hl
      split
      · rename_i pid hp
        refine ⟨(schemaPhase2 (schemaPhase1 env st item).1 genre style).2,
          [Call.updatePage pid], ?_, ?_, ?_, ?_, ?_, ?_, ?_, ?_, ?_⟩
        · simp [List.append_assoc]
        · exact schemaPhase2_not_write _ _ _
        · simp [isSchema]
        · intro f v; exact countFV_updatePage f v pid
        · intro f v; exact schemaPhase2_count_le _ _ _ f v
        · intro f v; exact schemaPhase2_count_fields _ _ _ f v
        · intro f v; exact schemaPhase2_count_mem _ _ _ f v
        · intro f
          rw [optsOf_set_updated]
          exact schemaPhase2_mono _ _ _ f
        · intro f v h
          rw [optsOf_set_updated]
          exact (schemaPhase2_count_pos _ _ _ f v h).2
      · rename_i hp
        refine ⟨(schemaPhase2 (schemaPhase1 env st item).1 genre style).2,
          [Call.createPage item.releaseId], ?_, ?_, ?_, ?_, ?_, ?_, ?_, ?_, ?_⟩
        · simp [List.append_assoc]
        · exact schemaPhase2_not_write _ _ _
        · simp [isSchema]
        · intro f v; exact countFV_createPage f v item.releaseId
        · intro f v; exact schemaPhase2_count_le _ _ _ f v
        · intro f v; exact schemaPhase2_count_fields _ _ _ f v
        · intro f v; exact schemaPhase2_count_mem _ _ _ f v
        · intro f
          rw [optsOf_set_created]
          exact schemaPhase2_mono _ _ _ f
        · intro f v h
          rw [optsOf_set_created]
          exact (schemaPhase2_count_pos _ _ _ f v h).2
    · rename_i hl
      refine ⟨(schemaPhase2 (schemaPhase1 env st item).1 genre style).2,
        [], ?_, ?_, ?_, ?_, ?_, ?_, ?_, ?_, ?_⟩
      · simp [List.append_assoc]
      · exact schemaPhase2_not_write _ _ _
      · simp
      · intro f v; rfl
      · intro f v; exact schemaPhase2_count_le _ _ _ f v
      · intro f v; exact schemaPhase2_count_fields _ _ _ f v
      · intro f v; exact schemaPhase2_count_mem _ _ _ f v
      · intro f; exact schemaPhase2_mono _ _ _ f
      · intro f v h; exact (schemaPhase2_count_pos _ _ _ f v h).2
  · refine ⟨[], [], ?_, ?_, ?_, ?_, ?_, ?_, ?_, ?_, ?_⟩
    · simp
    · simp
    · simp
    · intro f v; rfl
    · intro f v; simp [countFV_nil]
    · intro f v h; simp [countFV_nil] at h
    · intro f v _; rfl
    · intro f; exact Finset.Subset.refl _
    · intro f v h; simp [countFV_nil] at h

theorem countFV_dm (f v : String) (r : Nat) :
    countFV f v [Call.detailFetch r, Call.marketFetch r] = 0 := rfl

theorem processItem_count_le (env : Env) (st : SyncSt) (item : Item)
    (f v : String) : countFV f v (processItem env st item).2 ≤ 1 := by
  obtain ⟨tail, w, heq, _, _, hw0, htle, htf, _, _, _⟩ :=
    processItem_shape env st item
  rw [heq, countFV_append, countFV_append, countFV_append, hw0 f v,
      countFV_dm]
  by_cases hp1 : 1 ≤ countFV f v (schemaPhase1 env st item).2
  · have hf := schemaPhase1_count_fields env st item f v hp1
    have htail0 : countFV f v tail = 0 := by
      by_contra hne
      have hge : 1 ≤ countFV f v tail := Nat.one_le_iff_ne_zero.mpr hne
      rcases htf f v hge with hgf | hgf <;> rcases hf with hff | hff | hff <;>
        (subst hgf; exact absurd hff (by decide))
    have := schemaPhase1_count_le env st item f v
    omega
  · have := htle f v
    omega

theorem processItem_count_mem (env : Env) (st : SyncSt) (item : Item)
    (f v : String) (hmem : v ∈ optsOf st f) :
    countFV f v (processItem env st item).2 = 0 := by
  obtain ⟨tail, w, heq, _, _, hw0, _, _, htmem, _, _⟩ :=
    processItem_shape env st item
  rw [heq, countFV_append, countFV_append, countFV_append, hw0 f v,
      countFV_dm, schemaPhase1_count_mem env st item f v hmem,
      htmem f v (schemaPhase1_mono env st item f hmem)]

theorem processItem_mono (env : Env) (st : SyncSt) (item : Item) (f : String) :
    optsOf st f ⊆ optsOf (processItem env st item).1 f := by
  obtain ⟨tail, w, _, _, _, _, _, _, _, hmono, _⟩ :=
    processItem_shape env st item
  exact Finset.Subset.trans (schemaPhase1_mono env st item f) (hmono f)

theorem processItem_count_pos (env : Env) (st : SyncSt) (item : Item)
    (f v : String) (h : 1 ≤ countFV f v (processItem env st item).2) :
    v ∈ optsOf (processItem env st item).1 f := by
  obtain ⟨tail, w, heq, _, _, hw0, _, _, _, hmono, hpos⟩ :=
    processItem_shape env st item
  rw [heq, countFV_append, countFV_append, countFV_append, hw0 f v,
      countFV_dm] at h
  by_cases hp1 : 1 ≤ countFV f v (schemaPhase1 env st item).2
  · exact hmono f ((schemaPhase1_count_pos env st item f v hp1).2)
  · have hge : 1 ≤ countFV f v tail := by omega
    exact hpos f v hge

/-! ### Run-level lemmas -/

theorem runSync_count_mem (env : Env) (f v : String) :
    ∀ (items : List Item) (st : SyncSt), v ∈ optsOf st f →
      countFV f v (runSync env st items).2 = 0 := by
  intro items
  induction items with
  | nil => intro st _; rfl
  | cons item rest ih =>
    intro st hmem
    simp only [runSync]
    rw [countFV_append, processItem_count_mem env st item f v hmem,
        ih (processItem env st item).1 (processItem_mono env st item f hmem)]

theorem runSync_count_le (env : Env) (f v : String) :
    ∀ (items : List Item) (st : SyncSt),
      countFV f v (runSync env st items).2 ≤ 1 := by
  intro items
  induction items with
  | nil => intro st; simp [runSync, countFV_nil]
  | cons item rest ih =>
    intro st
    simp only [runSync]
    rw [countFV_append]
    by_cases hp : 1 ≤ countFV f v (processItem env st item).2
    · have h1 := processItem_count_le env st item f v
      have h0 := runSync_count_mem env f v rest (processItem env st item).1
        (processItem_count_pos env st item f v hp)
      omega
    · have := ih (processItem env st item).1
      omega

/-! ### Branch-specific lemmas about the loop body -/

theorem firstOrErr_ok (o : Option (List String)) (h : o ≠ some []) :
    ∃ r, firstOrErr o = Except.ok r := by
  match o with
  | none => exact ⟨none, rfl⟩
  | some [] => exact absurd rfl h
  | some (g :: gs) => exact ⟨some g, rfl⟩

theorem firstLabelCatno_ok (o : Option (List Label)) (h : o ≠ some []) :
    ∃ r, firstLabelCatno o = Except.ok r := by
  match o with
  | none => exact ⟨"", rfl⟩
  | some [] => exact absurd rfl h
  | some (l :: ls) => exact ⟨l.catno.getD "", rfl⟩

/-- When one of the three first-element extractions raises `IndexError`,
the per-item handler catches it: the counters are untouched and no page
write is issued (schema mutations already performed persist). -/
theorem processItem_error (env : Env) (st : SyncSt) (item : Item)
    (h : (env.detail item.releaseId).genres = some [] ∨
         (env.detail item.releaseId).styles = some [] ∨
         (env.detail item.releaseId).labels = some []) :
    (processItem env st item).1.created = st.created ∧
    (processItem env st item).1.updated = st.updated ∧
    ∀ c ∈ (processItem env st item).2, isWrite c = false := by
  simp only [processItem]
  split
  · rename_i genre style hg hs
    split
    · rename_i c hl
      exfalso
      rcases h with h | h | h
      · rw [h] at hg; exact Except.noConfusion hg
      · rw [h] at hs; exact Except.noConfusion hs
      · rw [h] at hl; exact Except.noConfusion hl
    · rename_i e hl
      refine ⟨?_, ?_, ?_⟩
      · rw [(schemaPhase2_counters _ _ _).1, (schemaPhase1_counters _ _ _).1]
      · rw [(schemaPhase2_counters _ _ _).2, (schemaPhase1_counters _ _ _).2]
      · intro c hc
        simp only [List.mem_append, List.mem_cons, List.not_mem_nil] at hc
        rcases hc with (hc | (hc | hc | hc)) | hc
        · exact schemaPhase1_not_write env st item c hc
        · subst hc; rfl
        · subst hc; rfl
        · exact absurd hc (by simp)
        · exact schemaPhase2_not_write _ _ _ c hc
  · refine ⟨?_, ?_, ?_⟩
    · exact (schemaPhase1_counters _ _ _).1
    · exact (schemaPhase1_counters _ _ _).2
    · intro c hc
      simp only [List.mem_append, List.mem_cons, List.not_mem_nil] at hc
      rcases hc with hc | (hc | hc | hc)
      · exact schemaPhase1_not_write env st item c hc
      · subst hc; rfl
      · subst hc; rfl
      · exact absurd hc (by simp)

/-- When extraction succeeds and the release id is already in the Notion
index, the item is counted `updated` and a page PATCH is issued — the
loop never compares content and never skips. -/
theorem processItem_write_update (env : Env) (st : SyncSt) (item : Item)
    (pid : String)
    (hg : (env.detail item.releaseId).genres ≠ some [])
    (hs : (env.detail item.releaseId).styles ≠ some [])
    (hl : (env.detail item.releaseId).labels ≠ some [])
    (hp : env.notionPages item.releaseId = some pid) :
    (processItem env st item).1.updated = st.updated + 1 ∧
    (processItem env st item).1.created = st.created ∧
    Call.updatePage pid ∈ (processItem env st item).2 := by
  obtain ⟨g, hgo⟩ := firstOrErr_ok _ hg
  obtain ⟨s, hso⟩ := firstOrErr_ok _ hs
  obtain ⟨cn, hco⟩ := firstLabelCatno_ok _ hl
  simp only [processItem]
  split
  · rename_i genre style hg' hs'
    split
    · rename_i c hl'
      split
      · rename_i pid' hp'
        rw [hp] at hp'
        injection hp' with hpid
        subst hpid
        refine ⟨?_, ?_, ?_⟩
        · simp only []
          rw [(schemaPhase2_counters _ _ _).2, (schemaPhase1_counters _ _ _).2]
        · simp only []
          rw [(schemaPhase2_counters _ _ _).1, (schemaPhase1_counters _ _ _).1]
        · simp [List.mem_append]
      · rename_i hp'
        rw [hp] at hp'
        exact Option.noConfusion hp'
    · rename_i e hl'
      rw [hco] at hl'
      exact Except.noConfusion hl'
  · rename_i hcatch
    exact absurd hso (hcatch g s hgo)

/-- When extraction succeeds and the release id is not in the Notion
index, the item is counted `created` and a page POST is issued. -/
theorem processItem_write_create (env : Env) (st : SyncSt) (item : Item)
    (hg : (env.detail item.releaseId).genres ≠ some [])
    (hs : (env.detail item.releaseId).styles ≠ some [])
    (hl : (env.detail item.releaseId).labels ≠ some [])
    (hp : env.notionPages item.releaseId = none) :
    (processItem env st item).1.created = st.created + 1 ∧
    (processItem env st item).1.updated = st.updated ∧
    Call.createPage item.releaseId ∈ (processItem env st item).2 := by
  obtain ⟨g, hgo⟩ := firstOrErr_ok _ hg
  obtain ⟨s, hso⟩ := firstOrErr_ok _ hs
  obtain ⟨cn, hco⟩ := firstLabelCatno_ok _ hl
  simp only [processItem]
  split
  · rename_i genre style hg' hs'
    split
    · rename_i c hl'
      split
      · rename_i pid' hp'
        rw [hp] at hp'
        exact Option.noConfusion hp'
      · refine ⟨?_, ?_, ?_⟩
        · simp only []
          rw [(schemaPhase2_counters _ _ _).1, (schemaPhase1_counters _ _ _).1]
        · simp only []
          rw [(schemaPhase2_counters _ _ _).2, (schemaPhase1_counters _ _ _).2]
        · simp [List.mem_append]
    · rename_i e hl'
      rw [hco] at hl'
      exact Except.noConfusion hl'
  · rename_i hcatch
    exact absurd hso (hcatch g s hgo)

/-- The fold equation of the loop: after one item the run continues with
the rest of the collection from the updated state. -/
theorem runSync_cons (env : Env) (st : SyncSt) (item : Item)
    (rest : List Item) :
    runSync env st (item :: rest) =
      ((runSync env (processItem env st item).1 rest).1,
       (processItem env st item).2 ++
         (runSync env (processItem env st item).1 rest).2) := rfl

/-- The loop always fetches the market stats for the item it processes —
on every branch, the `marketFetch` call is in the item's trace. -/
theorem processItem_market (env : Env) (st : SyncSt) (item : Item) :
    Call.marketFetch item.releaseId ∈ (processItem env st item).2 := by
  obtain ⟨tail, w, heq, _, _, _, _, _, _, _, _⟩ := processItem_shape env st item
  rw [heq]
  simp [List.mem_append]

/-! ### Lemmas about the descriptor loop of `parse_formats` -/

theorem sizeSearch_ne_empty (d : String) (h : sizeSearch d = true) :
    pyFalsyStr (some d) = false := by
  by_cases hd : d = ""
  · subst hd; exact absurd h (by decide)
  · simp only [pyFalsyStr]
    exact beq_eq_false_iff_ne.mpr hd

theorem rpmSearchRep_ne_empty (d : String) (h : rpmSearchRep d = true) :
    pyFalsyStr (some d) = false := by
  by_cases hd : d = ""
  · subst hd; exact absurd h (by decide)
  · simp only [pyFalsyStr]
    exact beq_eq_false_iff_ne.mpr hd

/-- Once `size` holds a truthy string it is never reassigned. -/
theorem parseLoop_size_frozen :
    ∀ (l : List String) (size speed : Option String) (details : List String),
      pyFalsyStr size = false → (parseLoop l size speed details).1 = size := by
  intro l
  induction l with
  | nil => intro size speed details _; rfl
  | cons d rest ih =>
    intro size speed details h
    simp only [parseLoop, h, Bool.false_and, Bool.false_eq_true, if_false]
    split
    · exact ih _ _ _ h
    · exact ih _ _ _ h

/-- First match wins for `size`: starting unassigned, the loop assigns
`size` the first token the size pattern matches. -/
theorem parseLoop_size_find :
    ∀ (l : List String) (speed : Option String) (details : List String),
      (parseLoop l none speed details).1 = l.find? sizeSearch := by
  intro l
  induction l with
  | nil => intro speed details; rfl
  | cons d rest ih =>
    intro speed details
    by_cases hd : sizeSearch d = true
    · simp only [parseLoop, pyFalsyStr, Bool.true_and, hd, if_true]
      rw [parseLoop_size_frozen rest (some d) speed details
        (sizeSearch_ne_empty d hd)]
      rw [List.find?_cons_of_pos _ hd]
    · have hd' : sizeSearch d = false := by
        cases hds : sizeSearch d
        · rfl
        · exact absurd hds hd
      simp only [parseLoop, pyFalsyStr, Bool.true_and, hd', Bool.false_eq_true,
        if_false]
      rw [List.find?_cons_of_neg _ (by simp [hd'])]
      split
      · exact ih _ _
      · exact ih _ _

/-- The leftover `details` tokens are the input tokens minus at most one
size token and at most one speed token, in input order. -/
theorem parseLoop_details :
    ∀ (l : List String) (size speed : Option String) (details : List String),
      ∃ δ, (parseLoop l size speed details).2.2 = details ++ δ ∧
        δ.Sublist l ∧
        l.length ≤ δ.length + (if pyFalsyStr size = true then 1 else 0) +
          (if pyFalsyStr speed = true then 1 else 0) := by
  intro l
  induction l with
  | nil =>
    intro size speed details
    exact ⟨[], by simp [parseLoop], List.Sublist.refl [], by simp [parseLoop]⟩
  | cons d rest ih =>
    intro size speed details
    simp only [parseLoop]
    by_cases h1 : (pyFalsyStr size && sizeSearch d) = true
    · rw [if_pos h1]
      rcases Bool.and_eq_true_iff.mp h1 with ⟨hsz, hmatch⟩
      obtain ⟨δ, heq, hsub, hlen⟩ := ih (some d) speed details
      refine ⟨δ, heq, hsub.cons d, ?_⟩
      rw [sizeSearch_ne_empty d hmatch] at hlen
      simp only [Bool.false_eq_true, if_false] at hlen
      rw [hsz, if_pos rfl]
      simp only [List.length_cons]
      omega
    · rw [if_neg h1]
      by_cases h2 : (pyFalsyStr speed && rpmSearchRep d) = true
      · rw [if_pos h2]
        rcases Bool.and_eq_true_iff.mp h2 with ⟨hsp, hmatch⟩
        obtain ⟨δ, heq, hsub, hlen⟩ := ih size (some d) details
        refine ⟨δ, heq, hsub.cons d, ?_⟩
        rw [rpmSearchRep_ne_empty d hmatch] at hlen
        simp only [Bool.false_eq_true, if_false] at hlen
        rw [hsp, if_pos rfl]
        simp only [List.length_cons]
        omega
      · rw [if_neg h2]
        obtain ⟨δ, heq, hsub, hlen⟩ := ih size speed (details ++ [d])
        refine ⟨d :: δ, ?_, hsub.cons₂ d, ?_⟩
        · rw [heq, List.append_assoc]
          rfl
        · simp only [List.length_cons]
          omega

/-- `parse_formats` on a single format entry: size is the first token the
size pattern matches, and the details string joins, in order, a sublist
of the tokens missing at most two elements (the size and speed picks). -/
theorem parse_formats_single (tokens : List String) :
    ∃ δ : List String, δ.Sublist tokens ∧ tokens.length ≤ δ.length + 2 ∧
      (parse_formats (some [⟨some tokens⟩])).1 = tokens.find? sizeSearch ∧
      (parse_formats (some [⟨some tokens⟩])).2.2 =
        (if δ.isEmpty then none else some (String.intercalate ", " δ)) := by
  obtain ⟨δ, heq, hsub, hlen⟩ := parseLoop_details tokens none none []
  refine ⟨δ, hsub, ?_, ?_, ?_⟩
  · simp [pyFalsyStr] at hlen
    omega
  · simp only [parse_formats, List.isEmpty_cons, List.foldr_cons,
      List.foldr_nil, Option.getD_some, List.append_nil, Bool.false_eq_true,
      if_false]
    exact parseLoop_size_find tokens none []
  · simp only [parse_formats, List.isEmpty_cons, List.foldr_cons,
      List.foldr_nil, Option.getD_some, List.append_nil, Bool.false_eq_true,
      if_false]
    rw [heq]
    simp

/-! ### Value-sync-script lemmas -/

/-- An unchanged page (stored values equal to the freshly fetched market
values) is counted `skipped` and gets no PATCH; the market values were
still fetched. -/
theorem vs_step_unchanged (env : VSEnv) (c : Nat × Nat) (p : NPage)
    (rid : Int) (hid : p.discogsId = some rid) (hnz : rid ≠ 0)
    (hm : env.market rid = (p.low, p.med, p.high)) :
    vs_step env c p = ((c.1, c.2 + 1), [VSCall.marketFetch rid]) := by
  simp only [vs_step, hid, if_neg hnz]
  rw [hm]
  simp

/-- A whole value-sync run over pages whose stored values all match the
market: every page is skipped, the `updated` counter stays put, and the
trace holds no PATCH (only market fetches). -/
theorem vs_main_unchanged (env : VSEnv) :
    ∀ (pages : List NPage) (c : Nat × Nat),
      (∀ p ∈ pages, ∀ rid : Int, p.discogsId = some rid → rid ≠ 0 →
        env.market rid = (p.low, p.med, p.high)) →
      (vs_main env c pages).1 = (c.1, c.2 + pages.length) ∧
      ∀ call ∈ (vs_main env c pages).2, ∃ rid, call = VSCall.marketFetch rid := by
  intro pages
  induction pages with
  | nil =>
    intro c _
    exact ⟨by simp [vs_main], by simp [vs_main]⟩
  | cons p rest ih =>
    intro c hp
    have hstep : (vs_step env c p).1 = (c.1, c.2 + 1) ∧
        ∀ call ∈ (vs_step env c p).2, ∃ rid, call = VSCall.marketFetch rid := by
      cases hid : p.discogsId with
      | none => exact ⟨by simp [vs_step, hid], by simp [vs_step, hid]⟩
      | some rid =>
        by_cases hz : rid = 0
        · subst hz
          exact ⟨by simp [vs_step, hid], by simp [vs_step, hid]⟩
        · rw [vs_step_unchanged env c p rid hid hz
            (hp p (List.mem_cons_self p rest) rid hid hz)]
          exact ⟨rfl, by simp⟩
    obtain ⟨ih1, ih2⟩ := ih (vs_step env c p).1
      (fun q hq rid h1 h2 => hp q (List.mem_cons_of_mem p hq) rid h1 h2)
    constructor
    · simp only [vs_main]
      rw [ih1, hstep.1]
      simp only [List.length_cons, Prod.mk.injEq]
      exact ⟨trivial, by omega⟩
    · intro call hcall
      simp only [vs_main] at hcall
      rcases List.mem_append.mp hcall with h | h
      · exact hstep.2 call h
      · exact ih2 call h

/-! ## Claims -/

/-- C1 counterexample: a re-run over one unchanged item whose release id
already has a Notion page (and whose only genre is already a known
option) still issues a page PATCH and counts it `updated` — the loop
consults no fingerprint and skips nothing, so the claimed "zero
created/updated on the second run, all items skipped" is false. -/
theorem C1_counterexample :
    (runSync envU stU [itemU]).1.created = 0 ∧
    (runSync envU stU [itemU]).1.updated = 1 ∧
    Call.updatePage "pg1" ∈ (runSync envU stU [itemU]).2 := by decide

/-- C1 amended: `sync.py` updates every successfully processed item whose
release id is already in the Notion index — unconditionally, with no
fingerprint comparison and no skip; only the separate value-sync script
is idempotent: a run over pages whose stored market values equal the
freshly fetched ones counts every page skipped and issues no write. -/
theorem C1_amended :
    (∀ (env : Env) (st : SyncSt) (item : Item) (pid : String),
      (env.detail item.releaseId).genres ≠ some [] →
      (env.detail item.releaseId).styles ≠ some [] →
      (env.detail item.releaseId).labels ≠ some [] →
      env.notionPages item.releaseId = some pid →
      (processItem env st item).1.updated = st.updated + 1 ∧
      (processItem env st item).1.created = st.created ∧
      Call.updatePage pid ∈ (processItem env st item).2) ∧
    (∀ (env : VSEnv) (pages : List NPage) (c : Nat × Nat),
      (∀ p ∈ pages, ∀ rid : Int, p.discogsId = some rid → rid ≠ 0 →
        env.market rid = (p.low, p.med, p.high)) →
      (vs_main env c pages).1 = (c.1, c.2 + pages.length) ∧
      ∀ call ∈ (vs_main env c pages).2, ∃ rid, call = VSCall.marketFetch rid) :=
  ⟨fun env st item pid hg hs hl hp =>
      processItem_write_update env st item pid hg hs hl hp,
   fun env pages c h => vs_main_unchanged env pages c h⟩

/-- C1 witness: the amended statement evaluated on the concrete re-run
environment and on a one-page value-sync run with matching values. -/
theorem C1_amended_witness :
    ((envU.detail itemU.releaseId).genres ≠ some [] ∧
     (envU.detail itemU.releaseId).styles ≠ some [] ∧
     (envU.detail itemU.releaseId).labels ≠ some [] ∧
     envU.notionPages itemU.releaseId = some "pg1") ∧
    (processItem envU stU itemU).1.updated = stU.updated + 1 ∧
    (processItem envU stU itemU).1.created = stU.created ∧
    Call.updatePage "pg1" ∈ (processItem envU stU itemU).2 ∧
    (vs_main vsEnvW (0, 0) [pageW]).1 = (0, 1) := by
  have h1 := C1_amended.1 envU stU itemU "pg1" (by decide) (by decide)
    (by decide) (by decide)
  have h2 := (C1_amended.2 vsEnvW [pageW] (0, 0) (by
    intro p hp rid hid hnz
    simp only [List.mem_singleton] at hp
    subst hp
    simp only [pageW, Option.some.injEq] at hid
    subst hid
    decide)).1
  exact ⟨⟨by decide, by decide, by decide, by decide⟩,
    h1.1, h1.2.1, h1.2.2, h2⟩

/-- C2 counterexample: page 1 succeeds and reports two pages, page 2
fails after transport retries — `get_full_collection` silently returns
the partial one-page list `[101]` as its result (its return type has no
error case at all), instead of aborting with a `SourceUnavailable`
error; the complete snapshot would have been `[101, 102]`. -/
theorem C2_counterexample :
    get_full_collection fetchFail 10 = [101] ∧
    get_full_collection fetchOk 10 = [101, 102] := by decide

/-- C2 amended: when a page fetch fails after transport retries, the
enumeration loop breaks and returns the releases accumulated so far as a
normal value — the partial collection is handed to the caller with no
error signal. -/
theorem C2_amended (fetch : Nat → Option PageData) (fuel page : Nat)
    (acc : List Nat) (h : fetch page = none) :
    get_full_collection_loop fetch (fuel + 1) page acc = acc := by
  simp [get_full_collection_loop, h]

/-- C2 witness: the break-on-failure behaviour evaluated at page 2 of the
failing source. -/
theorem C2_amended_witness :
    fetchFail 2 = none ∧
    get_full_collection_loop fetchFail 9 2 [101] = [101] :=
  ⟨by decide, C2_amended fetchFail 8 2 [101] (by decide)⟩

/-- C3 counterexample: the same unchanged-item re-run as C1 performs a
market-value fetch for the item — contradicting "a run over unchanged
items performs no market-value fetches" (there is no fingerprint gate in
front of `get_market_stats`). -/
theorem C3_counterexample :
    Call.marketFetch 1 ∈ (runSync envU stU [itemU]).2 := by decide

/-- C3 amended: `main()` calls `get_market_stats` for every item it
processes, unconditionally and before the create/update decision —
market values are refetched on every run regardless of whether anything
changed. -/
theorem C3_amended (env : Env) (st : SyncSt) (item : Item) :
    Call.marketFetch item.releaseId ∈ (processItem env st item).2 :=
  processItem_market env st item

/-- C5 counterexample: `sync.py`'s `discogs_request` on a server that
answers 429 with `Retry-After: 7` every time does not sleep 7 seconds —
it sleeps the exponential backoff `1, 2, 4, 8, 16`, gives up after the
five-attempt budget, and surfaces the throttle as a failure (`None`). -/
theorem C5_counterexample :
    SyncScript.discogs_request (fun _ => ReqOutcome.ok ⟨429, some 7⟩) 5 0 [] =
      (none, [1, 2, 4, 8, 16]) := by decide

/-- C5 amended: only the value-sync script's transport implements the
claimed policy: any number of leading 429 responses each add exactly one
sleep of their `Retry-After` value (default 5) and the request is
retried, uncapped; the outcome is entirely that of the first non-429
response, so a throttle is never surfaced as a failure.  `sync.py`'s
transport instead retries 429 with capped exponential backoff (see the
counterexample). -/
theorem C5_amended (ras : List (Option Nat)) (final : Resp)
    (rest : List Resp) (_hfinal : final.code ≠ 429) :
    ValueSync.discogs_request
        (ras.map (fun ra => Resp.mk 429 ra) ++ final :: rest) =
      ((ValueSync.discogs_request (final :: rest)).1,
       ras.map (fun ra => ra.getD 5) ++
         (ValueSync.discogs_request (final :: rest)).2) := by
  induction ras with
  | nil => simp
  | cons ra ras ih =>
    have hstep : ValueSync.discogs_request
        (Resp.mk 429 ra :: (ras.map (fun x => Resp.mk 429 x) ++ final :: rest)) =
        ((ValueSync.discogs_request
            (ras.map (fun x => Resp.mk 429 x) ++ final :: rest)).1,
         ra.getD 5 :: (ValueSync.discogs_request
            (ras.map (fun x => Resp.mk 429 x) ++ final :: rest)).2) := rfl
    simp only [List.map_cons, List.cons_append]
    rw [hstep, ih]

/-- C5 witness: two throttles (`Retry-After: 7`, then none) before a 200
yield sleeps `[7, 5]` and the 200 outcome. -/
theorem C5_amended_witness :
    (Resp.mk 200 none).code ≠ 429 ∧
    ValueSync.discogs_request
        ([some 7, none].map (fun ra => Resp.mk 429 ra) ++
          Resp.mk 200 none :: []) =
      ((ValueSync.discogs_request (Resp.mk 200 none :: [])).1,
       [some 7, none].map (fun ra => ra.getD 5) ++
         (ValueSync.discogs_request (Resp.mk 200 none :: [])).2) :=
  ⟨by decide, C5_amended [some 7, none] (Resp.mk 200 none) [] (by decide)⟩

/-- C4: `parse_formats` conforms to the specified examples —
`["7\"", "45 RPM", "Single", "Promo"]` gives size `7"`, speed `45 RPM`,
details `"Single, Promo"`; an absent, empty or description-less format
list gives `(none, none, none)`, not empty strings; `["Gatefold"]` gives
only details `"Gatefold"`.  Moreover size is the first token the size
pattern matches, and the details string joins, in input order, a sublist
of the tokens from which at most two tokens (the size and speed picks)
are missing. -/
theorem C4_descriptor_split :
    parse_formats (some [⟨some ["7\"", "45 RPM", "Single", "Promo"]⟩]) =
      (some "7\"", some "45 RPM", some "Single, Promo") ∧
    parse_formats none = (none, none, none) ∧
    parse_formats (some []) = (none, none, none) ∧
    parse_formats (some [⟨some []⟩]) = (none, none, none) ∧
    parse_formats (some [⟨none⟩]) = (none, none, none) ∧
    parse_formats (some [⟨some ["Gatefold"]⟩]) =
      (none, none, some "Gatefold") ∧
    ∀ tokens : List String, ∃ δ : List String, δ.Sublist tokens ∧
      tokens.length ≤ δ.length + 2 ∧
      (parse_formats (some [⟨some tokens⟩])).1 = tokens.find? sizeSearch ∧
      (parse_formats (some [⟨some tokens⟩])).2.2 =
        (if δ.isEmpty then none else some (String.intercalate ", " δ)) :=
  ⟨by decide, rfl, by decide, by decide, by decide, by decide,
   parse_formats_single⟩

/-- C6 counterexample: a run over two items carrying two distinct new
folder names issues two registry-update calls for the single field
`Folder` — one per new value — not the claimed single batched call per
field. -/
theorem C6_counterexample :
    ((runSync envC stZ [itemA, itemB]).2.filter isSchema).length = 2 ∧
    (runSync envC stZ [itemA, itemB]).2.filter isSchema =
      [Call.schemaUpdate "Folder" "A" {"A"},
       Call.schemaUpdate "Folder" "B" {"B", "A"}] := by decide

/-- C6 amended: each individual new value of a categorical field triggers
exactly one registry-update call at the item that first carries it, and
that call carries the full accumulated option set (existing ∪ the new
value); a field with several new values in a run receives one call per
value.  Per distinct (field, value) pair, a run never issues more than
one call. -/
theorem C6_amended :
    (∀ (f v : String) (opts : Finset String), v ≠ "" → v ∉ opts →
      ensureSelect f (some v) opts =
        (insert v opts, [Call.schemaUpdate f v (insert v opts)])) ∧
    (∀ (env : Env) (st : SyncSt) (items : List Item) (f v : String),
      countFV f v (runSync env st items).2 ≤ 1) := by
  constructor
  · intro f v opts h1 h2
    simp only [ensureSelect, update_select_schema]
    rw [if_pos ⟨h1, h2⟩]
  · intro env st items f v
    exact runSync_count_le env f v items st

/-- C6 witness: the single-call behaviour evaluated on a fresh value. -/
theorem C6_amended_witness :
    (("A" : String) ≠ "" ∧ ("A" : String) ∉ (∅ : Finset String)) ∧
    ensureSelect "Folder" (some "A") ∅ =
      ((insert "A" ∅ : Finset String),
       [Call.schemaUpdate "Folder" "A" (insert "A" ∅)]) :=
  ⟨⟨by decide, by decide⟩, C6_amended.1 "Folder" "A" ∅ (by decide) (by decide)⟩

/-- C7 counterexample: a run over one item whose processing raises (and
catches) an `IndexError` ends reporting only the two counters `Created`
and `Updated`, both zero — there is no `skipped` and no `failed` counter
at all, and the caught failure goes uncounted. -/
theorem C7_counterexample :
    sync_report (runSync envG stZ [itemG]).1 =
      [("Created", 0), ("Updated", 0)] ∧
    "skipped" ∉ (sync_report (runSync envG stZ [itemG]).1).map Prod.fst ∧
    "failed" ∉ (sync_report (runSync envG stZ [itemG]).1).map Prod.fst := by
  decide

/-- C7 amended: a caught per-item failure leaves every maintained counter
unchanged (it is logged but not counted), and the final report names
exactly `Created` and `Updated` in `sync.py` (and `Updated` and
`Unchanged` in the value-sync script) — never four counters. -/
theorem C7_amended (env : Env) (st : SyncSt) (item : Item)
    (h : (env.detail item.releaseId).genres = some [] ∨
         (env.detail item.releaseId).styles = some [] ∨
         (env.detail item.releaseId).labels = some []) :
    (processItem env st item).1.created = st.created ∧
    (processItem env st item).1.updated = st.updated ∧
    (sync_report (processItem env st item).1).map Prod.fst =
      ["Created", "Updated"] ∧
    ∀ c : Nat × Nat, (vs_report c).map Prod.fst = ["Updated", "Unchanged"] := by
  obtain ⟨h1, h2, _⟩ := processItem_error env st item h
  exact ⟨h1, h2, rfl, fun _ => rfl⟩

/-- C7 witness: the amended statement evaluated on the failing item. -/
theorem C7_amended_witness :
    ((envG.detail itemG.releaseId).genres = some [] ∨
     (envG.detail itemG.releaseId).styles = some [] ∨
     (envG.detail itemG.releaseId).labels = some []) ∧
    (processItem envG stZ itemG).1.created = stZ.created ∧
    (processItem envG stZ itemG).1.updated = stZ.updated ∧
    (sync_report (processItem envG stZ itemG).1).map Prod.fst =
      ["Created", "Updated"] :=
  ⟨Or.inl (by decide),
   (C7_amended envG stZ itemG (Or.inl (by decide))).1,
   (C7_amended envG stZ itemG (Or.inl (by decide))).2.1,
   (C7_amended envG stZ itemG (Or.inl (by decide))).2.2.1⟩

/-- C8: schema-sync precedes write — the trace of every loop iteration
splits into a first region containing no page write (it holds the five
select-schema updates and the two fetches) followed by a region
containing no schema update (the create/update call, when one happens):
every registry-update call of an item is issued before that item's
create or update call. -/
theorem C8_schema_precedes_write (env : Env) (st : SyncSt) (item : Item) :
    ∃ l₁ l₂ : List Call, (processItem env st item).2 = l₁ ++ l₂ ∧
      (∀ c ∈ l₁, isWrite c = false) ∧ (∀ c ∈ l₂, isSchema c = false) := by
  obtain ⟨tail, w, heq, htw, hws, _, _, _, _, _, _⟩ :=
    processItem_shape env st item
  refine ⟨(schemaPhase1 env st item).2 ++
    [Call.detailFetch item.releaseId, Call.marketFetch item.releaseId] ++ tail,
    w, by rw [heq], ?_, hws⟩
  intro c hc
  simp only [List.mem_append, List.mem_cons, List.not_mem_nil, or_false] at hc
  rcases hc with (hc | hc | hc) | hc
  · exact schemaPhase1_not_write env st item c hc
  · subst hc; rfl
  · subst hc; rfl
  · exact htw c hc

/-- C9: within one run, at most one registry-update call is issued per
distinct (field, new value) pair — `update_select_schema` inserts the
value into the shared in-memory option set before the PATCH, so every
later item carrying the same value finds it present and triggers no
further call. -/
theorem C9_one_schema_call_per_value (env : Env) (st : SyncSt)
    (items : List Item) (f v : String) :
    countFV f v (runSync env st items).2 ≤ 1 :=
  runSync_count_le env f v items st

/-- C10: a detail record with `"genres"` mapped to the empty list makes
`full_release.get("genres", [None])[0]` raise `IndexError` (the `[None]`
default applies only when the key is absent), the per-item handler
catches it — the item increments no counter and produces neither a
create nor an update — and the run continues with the remaining items. -/
theorem C10_empty_genres_index_error (env : Env) (st : SyncSt) (item : Item)
    (rest : List Item)
    (h : (env.detail item.releaseId).genres = some []) :
    firstOrErr (env.detail item.releaseId).genres = Except.error () ∧
    firstOrErr (none : Option (List String)) = Except.ok none ∧
    (processItem env st item).1.created = st.created ∧
    (processItem env st item).1.updated = st.updated ∧
    (∀ c ∈ (processItem env st item).2, isWrite c = false) ∧
    runSync env st (item :: rest) =
      ((runSync env (processItem env st item).1 rest).1,
       (processItem env st item).2 ++
         (runSync env (processItem env st item).1 rest).2) := by
  obtain ⟨h1, h2, h3⟩ := processItem_error env st item (Or.inl h)
  exact ⟨by rw [h]; rfl, rfl, h1, h2, h3, runSync_cons env st item rest⟩

/-- C10 witness: the empty-genres behaviour evaluated on the concrete
failing item. -/
theorem C10_witness :
    (envG.detail itemG.releaseId).genres = some [] ∧
    firstOrErr (envG.detail itemG.releaseId).genres = Except.error () ∧
    (processItem envG stZ itemG).1.created = stZ.created ∧
    (processItem envG stZ itemG).1.updated = stZ.updated :=
  ⟨by decide,
   (C10_empty_genres_index_error envG stZ itemG [] (by decide)).1,
   (C10_empty_genres_index_error envG stZ itemG [] (by decide)).2.2.1,
   (C10_empty_genres_index_error envG stZ itemG [] (by decide)).2.2.2.1⟩

end DiscogsNotionSync
